import Mathlib

/-!
Verification of the babel-plugin-react-transform source (src/src/index.js).

The development shallowly embeds the plugin: POSIX path arithmetic used by
the Path Resolver, the component detector, the record tracker, the code
synthesizer, and the visitor traversal.  Paths are JS strings; where the
Node path library converts between strings and component lists, the model
keeps the component lists explicit.  Machine-level details that the plugin
never relies on (unicode width, surrogate pairs) are outside the model.
-/

namespace ReactTransform

/-- Errors surfaced by the plugin.  The source throws plain Error objects;
the two throw sites (relative path in conservative mode, missing or
non-array configuration) are distinguished here, plus the TypeError a
run would hit when getPluginOptions returns undefined and Program.exit
calls .map on it. -/
inductive PluginError where
  | configurationError
  | unsafeRelativePathError
  | typeError
deriving DecidableEq

/-- path.sep on POSIX hosts. -/
def sep : String := "/"

/-- Whether the first character of a string is the given one (the JS
charAt-zero comparison; false on the empty string). -/
def headIs (c : Char) (s : String) : Bool :=
  match s.toList with
  | x :: _ => x == c
  | [] => false

/-- Split a character list at every separator (the semantics of splitting
a string on the one-character separator). -/
def splitSlashChars : List Char → List (List Char)
  | [] => [[]]
  | c :: rest =>
    let r := splitSlashChars rest
    if c = '/' then [] :: r
    else
      match r with
      | h :: t => (c :: h) :: t
      | [] => [[c]]

/-- Split a path string on the separator. -/
def splitSlash (s : String) : List String :=
  (splitSlashChars s.toList).map (fun l => String.mk l)

/-- Split a path string on the separator, dropping empty components. -/
def splitParts (s : String) : List String :=
  (splitSlash s).filter (fun p => p ≠ "")

/-- Normalisation core for absolute paths: processes "." and ".."
components against an accumulator stack (held reversed).  A ".." above
the root is dropped, as in Node path.resolve. -/
def normAbsAux : List String → List String → List String
  | stack, [] => stack.reverse
  | stack, p :: ps =>
    if p = "" ∨ p = "." then normAbsAux stack ps
    else if p = ".." then normAbsAux stack.tail ps
    else normAbsAux (p :: stack) ps

/-- Normalised component list of an absolute path. -/
def normParts (l : List String) : List String := normAbsAux [] l

/-- Component list of path.resolve(cwd, p): absolute inputs ignore cwd. -/
def absParts (cwd p : String) : List String :=
  if headIs '/' p then normParts (splitParts p)
  else normParts (splitParts cwd ++ splitParts p)

/-- path.resolve with an explicit working directory (the source calls the
one-argument form, which resolves against the process cwd). -/
def pathResolve (cwd p : String) : String :=
  "/" ++ String.intercalate "/" (absParts cwd p)

/-- Normalisation for relative paths: leading ".." components are kept,
as in Node path.join / path.normalize. -/
def normRelAux : List String → List String → List String
  | stack, [] => stack.reverse
  | stack, p :: ps =>
    if p = "" ∨ p = "." then normRelAux stack ps
    else if p = ".." then
      match stack with
      | [] => normRelAux [".."] ps
      | q :: rest => if q = ".." then normRelAux (".." :: p :: rest) ps
                     else normRelAux rest ps
    else normRelAux (p :: stack) ps

/-- path.join: concatenate the non-empty arguments with the separator and
normalize, keeping absoluteness. -/
def pathJoin (xs : List String) : String :=
  let joined := String.intercalate "/" (xs.filter (fun x => x ≠ ""))
  if headIs '/' joined then
    "/" ++ String.intercalate "/" (normParts (splitParts joined))
  else
    let ps := normRelAux [] (splitParts joined)
    if ps.isEmpty then "." else String.intercalate "/" ps

/-- path.dirname for the path shapes the plugin passes it (no trailing
separator). -/
def pathDirname (s : String) : String :=
  let parts := splitSlash s
  if parts.length ≤ 1 then "."
  else
    let front := parts.dropLast
    if front.all (fun p => p = "") then "/" else String.intercalate "/" front

/-- path.basename. -/
def pathBasename (s : String) : String :=
  match (splitParts s).getLast? with
  | some x => x
  | none => ""

/-- Length of the longest common prefix of two component lists. -/
def commonLen : List String → List String → Nat
  | x :: xs, y :: ys => if x = y then commonLen xs ys + 1 else 0
  | _, _ => 0

/-- Relative component list from one absolute component list to another:
one ".." per remaining source component, then the remaining target
components (the algorithm of Node path.relative). -/
def relParts (f t : List String) : List String :=
  List.replicate (f.length - commonLen f t) ".." ++ t.drop (commonLen f t)

/-- path.relative with an explicit working directory: both arguments are
resolved, then the difference is computed componentwise. -/
def pathRelative (cwd fromP toP : String) : String :=
  String.intercalate "/" (relParts (absParts cwd fromP) (absParts cwd toP))

/-- Result of path-parse (posix): directory part, base, extension, name. -/
structure PathInfo where
  dir : String
  base : String
  ext : String
  name : String
deriving DecidableEq

/-- Index of the last dot in a character list, if any. -/
def lastDotIdx : List Char → Option Nat
  | [] => none
  | c :: rest =>
    match lastDotIdx rest with
    | some j => some (j + 1)
    | none => if c = '.' then some 0 else none

/-- Split a base name into (name, ext) as path-parse does: the extension
starts at the last dot, except that a dot in position zero (hidden
files) and the special bases "." and ".." carry no extension. -/
def splitBaseExt (b : String) : String × String :=
  if b = "." ∨ b = ".." then (b, "")
  else
    match lastDotIdx b.toList with
    | none => (b, "")
    | some i =>
      if i = 0 then (b, "")
      else (String.mk (b.toList.take i), String.mk (b.toList.drop i))

/-- path-parse of a path string (posix). -/
def parsePath (s : String) : PathInfo :=
  let parts := splitSlash s
  let b := match parts.getLast? with
    | some x => x
    | none => s
  let dir :=
    if parts.length ≤ 1 then ""
    else
      let front := parts.dropLast
      if front.all (fun p => p = "") then "/" else String.intercalate "/" front
  let ne := splitBaseExt b
  ⟨dir, b, ne.2, ne.1⟩

/-- Host environment: process working directory and the value of
__dirname inside the installed plugin (both absolute). -/
structure Env where
  cwd : String
  pluginDirname : String

/-- parentDir from the source: path.resolve(path.join(__dirname, up, up)). -/
def parentDir (env : Env) : String :=
  pathResolve env.cwd (pathJoin [env.pluginDirname, "..", ".."])

/-- resolvePathConservatively: relative specifiers are rejected, others
pass through unchanged. -/
def resolvePathConservatively (specifiedPath : String) (filePath : String) :
    Except PluginError String :=
  if headIs '.' specifiedPath then .error .unsafeRelativePathError
  else .ok specifiedPath

/-- resolvePathAssumingWeAreInNodeModules: a relative specifier is first
resolved against the parent of parentDir, then re-relativised against the
directory of the consuming file and given a "." ++ sep marker; other
specifiers pass through unchanged. -/
def resolvePathAssumingWeAreInNodeModules (env : Env)
    (specifiedPath : String) (filePath : String) : Except PluginError String :=
  if headIs '.' specifiedPath then
    .ok ("." ++ sep ++ pathRelative env.cwd (pathDirname filePath)
      (pathResolve env.cwd (pathJoin [parentDir env, "..", specifiedPath])))
  else .ok specifiedPath

/-- resolvePath: policy selected once from the location of the plugin
installation. -/
def resolvePath (env : Env) (specifiedPath : String) (filePath : String) :
    Except PluginError String :=
  if pathBasename (parentDir env) == "node_modules" then
    resolvePathAssumingWeAreInNodeModules env specifiedPath filePath
  else resolvePathConservatively specifiedPath filePath

/-- Component list of the directory of the file being processed. -/
def fileDirParts (env : Env) (filePath : String) : List String :=
  absParts env.cwd (pathDirname filePath)

/-- Component list of the module a relative configuration specifier
denotes: the specifier resolved against the parent of parentDir. -/
def importTargetParts (env : Env) (specifiedPath : String) : List String :=
  absParts env.cwd (pathResolve env.cwd (pathJoin [parentDir env, "..", specifiedPath]))

/-- Literal values the plugin inspects or synthesizes (string and boolean
literals; t.literal). -/
inductive Lit where
  | str (s : String)
  | bool (b : Bool)

/-- Abstract syntax nodes, covering the node kinds the plugin reads or
builds.  importRef stands for the identifier returned by file.addImport
(one-argument form carries no name hint, the three-argument absolute
form carries the original specifier). -/
inductive Node where
  | ident (name : String)
  | lit (v : Lit)
  | member (obj : Node) (computed : Bool) (key : Node)
  | call (callee : Node) (args : List Node)
  | objectE (props : List Node)
  | prop (kind : String) (computed : Bool) (key : Node) (value : Node)
  | arrayE (elems : List Node)
  | classNode (isExpr : Bool) (id : Option String) (members : List Node)
      (decorators : List Node)
  | classMember (kind : String) (computed : Bool) (key : Node) (value : Node)
  | funcNode (isDecl : Bool) (id : Option String) (params : List String)
      (body : List Node)
  | varDecl (kind : String) (decls : List Node)
  | declarator (id : Node) (init : Node)
  | exprStmt (e : Node)
  | ret (arg : Option Node)
  | decorator (e : Node)
  | importRef (source : String) (nameHint : Option String)

/-- The .name field of a key node: present only on identifiers. -/
def keyName : Node → Option String
  | .ident n => some n
  | _ => none

/-- isRenderMethod: member.kind is "method" and member.key.name is
"render".  Nodes that are not class members have no kind and fail. -/
def isRenderMethod : Node → Bool
  | .classMember kind _ key _ => kind == "method" && keyName key == some "render"
  | _ => false

/-- isComponentishClass: the class body has a member passing
isRenderMethod. -/
def isComponentishClass : Node → Bool
  | .classNode _ _ members _ => (members.filter isRenderMethod).length > 0
  | _ => false

/-- Value a member-pattern part matches against: the name of an identifier
or the string value of a literal (t.buildMatchMemberExpression reads
either, ignoring the computed flag). -/
def matchPartValue : Node → Option String
  | .ident n => some n
  | .lit (.str s) => some s
  | _ => none

/-- The matcher built by t.buildMatchMemberExpression for the pattern
React.createClass. -/
def isCreateClassCallExpression : Node → Bool
  | .member obj _ key =>
      matchPartValue obj == some "React" && matchPartValue key == some "createClass"
  | _ => false

/-- isCreateClass: a call whose callee matches React.createClass, with
exactly one argument that is an object expression. -/
def isCreateClass : Node → Bool
  | .call callee args =>
    isCreateClassCallExpression callee &&
      (match args with
       | [a] => (match a with | .objectE _ => true | _ => false)
       | _ => false)
  | _ => false

/-- t.toComputedKey on a property: a non-computed identifier key is
replaced by the corresponding string literal; everything else is
returned as-is. -/
def toComputedKey : Node → Node
  | .prop _ computed key _ =>
    if !computed then
      match key with
      | .ident n => .lit (.str n)
      | k => k
    else key
  | other => other

/-- t.isLiteral(key, with value displayName). -/
def isLiteralDisplayName : Node → Bool
  | .lit (.str s) => s == "displayName"
  | _ => false

/-- The .value field of the value of a property: defined only when the
value is a literal (prop.value.value in the source, undefined
otherwise). -/
def propLitValue : Node → Option Lit
  | .prop _ _ _ v =>
    (match v with
     | .lit l => some l
     | _ => none)
  | _ => none

/-- The .id.name of a node: classes and functions may carry a binding. -/
def nodeId : Node → Option String
  | .classNode _ id _ _ => id
  | .funcNode _ id _ _ => id
  | _ => none

/-- The .arguments of a node: present only on calls. -/
def nodeArguments : Node → Option (List Node)
  | .call _ args => some args
  | _ => none

/-- The property scan inside findDisplayName: first property whose
computed key is the displayName literal wins and its value literal (or
nothing, when the value is not a literal) is returned. -/
def scanDisplayName : List Node → Option Lit
  | [] => none
  | p :: rest =>
    if isLiteralDisplayName (toComputedKey p) then propLitValue p
    else scanDisplayName rest

/-- findDisplayName: a bound name wins; otherwise a call node has its
first argument scanned for a static displayName property.  In the
source the first argument is read unconditionally; the plugin only
reaches this point for createClass calls, which have exactly one
object argument, and the model returns nothing on other shapes (the
source would crash there). -/
def findDisplayName (node : Node) : Option Lit :=
  match nodeId node with
  | some n => some (.str n)
  | none =>
    match nodeArguments node with
    | none => none
    | some args =>
      match args with
      | (.objectE props) :: _ => scanDisplayName props
      | _ => none

/-- Plugin options as found in file.opts.extra under the
react-transform key: an array of target records or some other value. -/
structure TransformTarget where
  target : String
  imports : List String
  locals : List String

/-- A configuration value: either an array of records or any non-array
value. -/
inductive ConfigValue where
  | list (l : List TransformTarget)
  | nonList

/-- file.opts.extra: the bag may be missing, and the react-transform
entry inside it may be missing. -/
structure ExtraBag where
  reactTransform : Option ConfigValue

/-- The options relevant to one file: its name and the extras bag. -/
structure FileOpts where
  filename : String
  extra : Option ExtraBag

/-- getPluginOptions: returns undefined when opts or extra are missing,
throws when the entry is not an array, and returns the array
otherwise. -/
def getPluginOptions (file : FileOpts) :
    Except PluginError (Option (List TransformTarget)) :=
  match file.extra with
  | none => .ok none
  | some bag =>
    match bag.reactTransform with
    | some (.list l) => .ok (some l)
    | _ => .error .configurationError

/-- Per-file traversal state: function nesting depth, accumulated record
properties, the wrapper identifier minted at Program enter, and the
uid counter backing scope.generateUidIdentifier. -/
structure St where
  depth : Nat
  records : List Node
  wrapComponentId : String
  uid : Nat

/-- Names minted by scope.generateUidIdentifier: an underscore, the hint,
and the value of a monotone counter. -/
def genUid (hint : String) (n : Nat) : String :=
  "_" ++ hint ++ "_" ++ Nat.repr n

/-- Fresh identifier from the state counter. -/
def freshUid (hint : String) (st : St) : String × St :=
  (genUid hint st.uid, { st with uid := st.uid + 1 })

/-- createComponentRecord: display name (with falsy values collapsed to
undefined by the source), unique identifier from the hinted counter,
and the descriptor object. -/
def createComponentRecord (node : Node) (st : St) : (String × Node) × St :=
  let displayName : Option Lit :=
    match findDisplayName node with
    | some (.str "") => none
    | some (.bool false) => none
    | x => x
  let hint := "$" ++
    (match displayName with
     | some (.str s) => s
     | some (.bool _) => "true"
     | none => "Unknown")
  let (uniqueId, st) := freshUid hint st
  let nameProps : List Node :=
    match displayName with
    | some (.str s) =>
      [.prop "init" false (.ident "displayName") (.lit (.str s))]
    | _ => []
  let depthProps : List Node :=
    if st.depth > 0 then
      [.prop "init" false (.ident "isInFunction") (.lit (.bool true))]
    else []
  ((uniqueId, .objectE (nameProps ++ depthProps)), st)

/-- addComponentRecord: append the keyed descriptor to the state and
return the identifier. -/
def addComponentRecord (node : Node) (st : St) : String × St :=
  let r := createComponentRecord node st
  let uniqueId := r.1.1
  let st := r.2
  (uniqueId,
    { st with records := st.records ++ [.prop "init" false (.ident uniqueId) r.1.2] })

/-- foundComponentRecords: at least one record has been accumulated. -/
def foundComponentRecords (st : St) : Bool :=
  !st.records.isEmpty

/-- defineComponentRecords: move the records into a var declaration bound
to a fresh identifier, clearing the accumulator. -/
def defineComponentRecords (st : St) : (String × Node) × St :=
  let records := st.records
  let st := { st with records := [] }
  let (id, st) := freshUid "components" st
  ((id, .varDecl "var" [.declarator (.ident id) (.objectE records)]), st)

/-- isSameAsFileBeingProcessed: the import path is resolved and its parse
must have directory "." and the name of the file being processed. -/
def isSameAsFileBeingProcessed (env : Env) (filename : String)
    (importPath : String) : Except PluginError Bool :=
  match resolvePath env importPath filename with
  | .error e => .error e
  | .ok r =>
    .ok ((parsePath r).dir == "." && (parsePath r).name == (parsePath filename).name)

/-- Short-circuiting some over a monadic predicate, mirroring
Array.prototype.some with a throwing callback. -/
def anyE (p : String → Except PluginError Bool) : List String → Except PluginError Bool
  | [] => .ok false
  | x :: xs => do
    if (← p x) then pure true else anyE p xs

/-- The map building the imports array of an init call: each specifier is
resolved and turned into the identifier of an absolute-mode import
(file.addImport with three arguments), left to right. -/
def mapImportNodes (env : Env) (filename : String) :
    List String → Except PluginError (List Node)
  | [] => .ok []
  | imp :: rest => do
    let r ← resolvePath env imp filename
    let ns ← mapImportNodes env filename rest
    pure (Node.importRef r (some imp) :: ns)

/-- defineInitTransformCall translated from the source: mint the wrapper
identifier, skip the record when one of its imports resolves to the
file being processed, otherwise emit the var declaration importing and
invoking the target. -/
def defineInitTransformCall (env : Env) (filename : String) (recordsId : String)
    (targetOptions : TransformTarget) (n : Nat) :
    Except PluginError (Option (String × Node) × Nat) := do
  let id := genUid "reactComponentWrapper" n
  let n := n + 1
  let skip ← anyE (isSameAsFileBeingProcessed env filename) targetOptions.imports
  if skip then pure (none, n)
  else do
    let resolvedTarget ← resolvePath env targetOptions.target filename
    let importNodes ← mapImportNodes env filename targetOptions.imports
    pure (some (id, .varDecl "var" [.declarator (.ident id)
      (.call (.importRef resolvedTarget none) [.objectE [
        .prop "init" false (.ident "filename") (.lit (.str filename)),
        .prop "init" false (.ident "components") (.ident recordsId),
        .prop "init" false (.ident "locals")
          (.arrayE (targetOptions.locals.map (fun l => .ident l))),
        .prop "init" false (.ident "imports") (.arrayE importNodes)]])]), n)

/-- The map over the configuration list performed at Program exit,
threading the uid counter. -/
def synthInitCalls (env : Env) (filename : String) (recordsId : String) :
    List TransformTarget → Nat → Except PluginError (List (Option (String × Node)) × Nat)
  | [], n => .ok ([], n)
  | t :: ts, n => do
    let (c, n) ← defineInitTransformCall env filename recordsId t n
    let (cs, n) ← synthInitCalls env filename recordsId ts n
    pure (c :: cs, n)

/-- defineWrapComponent: the function of uniqueId returning the function
of ReactClass whose body threads the class through the transforms by a
left fold, exactly as the source reduce does. -/
def defineWrapComponent (wrapComponentId : String) (initTransformIds : List String) : Node :=
  .funcNode true (some wrapComponentId) ["uniqueId"]
    [.ret (some (.funcNode false none ["ReactClass"]
      [.ret (some (initTransformIds.foldl
        (fun composed i => .call (.ident i) [composed, .ident "uniqueId"])
        (.ident "ReactClass")))]))]

/-- Program exit: nothing happens without records; otherwise the options
are loaded (a missing extras bag leaves undefined and the subsequent
map crashes with a TypeError), the records variable, the init calls
and the wrapper are synthesized and the program is rebuilt. -/
def programExit (env : Env) (file : FileOpts) (st : St) (body : List Node) :
    Except PluginError (List Node) :=
  if foundComponentRecords st = false then .ok body
  else
    match getPluginOptions file with
    | .error e => .error e
    | .ok none => .error .typeError
    | .ok (some allTransformOptions) =>
      let dcr := defineComponentRecords st
      let recordsId := dcr.1.1
      let recordsVar := dcr.1.2
      let st := dcr.2
      match synthInitCalls env file.filename recordsId allTransformOptions st.uid with
      | .error e => .error e
      | .ok (optCalls, _) =>
        let initTransformCalls := optCalls.filterMap id
        let initTransformIds := initTransformCalls.map (fun c => c.1)
        let initTransformVars := initTransformCalls.map (fun c => c.2)
        let wrapComponent := defineWrapComponent st.wrapComponentId initTransformIds
        .ok (recordsVar :: (initTransformVars ++ wrapComponent :: body))

/-- The CallExpression exit visitor: qualifying factory calls are
recorded and wrapped in a call to the wrapper seeded with the new
identifier. -/
def callExitVisitor (node : Node) (st : St) : Node × St :=
  if isCreateClass node then
    let r := addComponentRecord node st
    (.call (.call (.ident r.2.wrapComponentId) [.lit (.str r.1)]) [node], r.2)
  else (node, st)

mutual

/-- The visitor traversal: Function enter and exit adjust the depth,
Class enter records componentish classes and pushes the decorator,
CallExpression exit wraps createClass calls after their children.
The decorator pushed on a class is not itself re-traversed (visiting
it would change nothing: it is a plain call to the wrapper). -/
def visitNode : Node → St → Node × St
  | .ident n, st => (.ident n, st)
  | .lit v, st => (.lit v, st)
  | .importRef s h, st => (.importRef s h, st)
  | .member obj comp key, st =>
    let (o, st) := visitNode obj st
    let (k, st) := visitNode key st
    (.member o comp k, st)
  | .call c args, st =>
    let (c2, st) := visitNode c st
    let (as2, st) := visitList args st
    callExitVisitor (.call c2 as2) st
  | .objectE ps, st =>
    let (ps2, st) := visitList ps st
    (.objectE ps2, st)
  | .prop kind comp k v, st =>
    let (k2, st) := visitNode k st
    let (v2, st) := visitNode v st
    (.prop kind comp k2 v2, st)
  | .arrayE es, st =>
    let (es2, st) := visitList es st
    (.arrayE es2, st)
  | .classNode e id ms ds, st =>
    if isComponentishClass (.classNode e id ms ds) then
      let r := addComponentRecord (.classNode e id ms ds) st
      let dec := Node.decorator (.call (.ident r.2.wrapComponentId) [.lit (.str r.1)])
      let (ms2, st) := visitList ms r.2
      let (ds2, st) := visitList ds st
      (.classNode e id ms2 (ds2 ++ [dec]), st)
    else
      let (ms2, st) := visitList ms st
      let (ds2, st) := visitList ds st
      (.classNode e id ms2 ds2, st)
  | .classMember kind comp k v, st =>
    let (k2, st) := visitNode k st
    let (v2, st) := visitNode v st
    (.classMember kind comp k2 v2, st)
  | .funcNode d i ps body, st =>
    let st := { st with depth := st.depth + 1 }
    let (b2, st) := visitList body st
    let st := { st with depth := st.depth - 1 }
    (.funcNode d i ps b2, st)
  | .varDecl k ds, st =>
    let (ds2, st) := visitList ds st
    (.varDecl k ds2, st)
  | .declarator i e, st =>
    let (i2, st) := visitNode i st
    let (e2, st) := visitNode e st
    (.declarator i2 e2, st)
  | .exprStmt e, st =>
    let (e2, st) := visitNode e st
    (.exprStmt e2, st)
  | .ret none, st => (.ret none, st)
  | .ret (some e), st =>
    let (e2, st) := visitNode e st
    (.ret (some e2), st)
  | .decorator e, st =>
    let (e2, st) := visitNode e st
    (.decorator e2, st)

/-- Traversal of a node list, threading the state left to right. -/
def visitList : List Node → St → List Node × St
  | [], st => ([], st)
  | n :: ns, st =>
    let (n2, st) := visitNode n st
    let (ns2, st) := visitList ns st
    (n2 :: ns2, st)

end

/-- transformFile: Program enter mints the wrapper identifier, the body
is traversed, and Program exit synthesizes any output. -/
def transformFile (env : Env) (file : FileOpts) (p : List Node) :
    Except PluginError (List Node) :=
  let st0 : St := ⟨0, [], "", 0⟩
  let (wrapId, st1) := freshUid "wrapComponent" st0
  let st1 := { st1 with wrapComponentId := wrapId }
  let (b2, st2) := visitList p st1
  programExit env file st2 b2

mutual

/-- Whether a tree holds a component-like node: a componentish class or a
qualifying createClass call, at any depth. -/
def hasComponentish : Node → Bool
  | .ident _ => false
  | .lit _ => false
  | .importRef _ _ => false
  | .member obj _ key => hasComponentish obj || hasComponentish key
  | .call c args =>
    isCreateClass (.call c args) || hasComponentish c || hasComponentishList args
  | .objectE ps => hasComponentishList ps
  | .prop _ _ k v => hasComponentish k || hasComponentish v
  | .arrayE es => hasComponentishList es
  | .classNode e id ms ds =>
    isComponentishClass (.classNode e id ms ds) || hasComponentishList ms ||
      hasComponentishList ds
  | .classMember _ _ k v => hasComponentish k || hasComponentish v
  | .funcNode _ _ _ body => hasComponentishList body
  | .varDecl _ ds => hasComponentishList ds
  | .declarator i e => hasComponentish i || hasComponentish e
  | .exprStmt e => hasComponentish e
  | .ret none => false
  | .ret (some e) => hasComponentish e
  | .decorator e => hasComponentish e

/-- List version of hasComponentish. -/
def hasComponentishList : List Node → Bool
  | [] => false
  | n :: ns => hasComponentish n || hasComponentishList ns

end

/-- Claim-side reading of the self-import guard: the specifier, once
resolved by the Path Resolver, denotes the module of the file being
processed — in the file-relative frame of resolved specifiers its
directory component is "." (the directory of the consuming file) and
its base name, extension ignored, is that of the file.  A specifier
whose resolution fails does not match. -/
def importResolvesToProcessedFile (env : Env) (filename : String)
    (importPath : String) : Bool :=
  match resolvePath env importPath filename with
  | .ok r => (parsePath r).dir == "." && (parsePath r).name == (parsePath filename).name
  | .error _ => false

/-- All specifiers of a record resolve without error. -/
def ResolveAllOk (env : Env) (filename : String) (t : TransformTarget) : Prop :=
  (resolvePath env t.target filename).isOk = true ∧
    ∀ imp ∈ t.imports, (resolvePath env imp filename).isOk = true

/-- The declaration payload of a non-skipped init call, as a pure
function of the record and the counter value at which its identifier
was minted. -/
def initCallPayload (env : Env) (filename : String) (recordsId : String)
    (t : TransformTarget) (n : Nat) : String × Node :=
  (genUid "reactComponentWrapper" n, .varDecl "var"
    [.declarator (.ident (genUid "reactComponentWrapper" n))
      (.call (.importRef (match resolvePath env t.target filename with
                          | .ok r => r
                          | .error _ => t.target) none)
        [.objectE [
          .prop "init" false (.ident "filename") (.lit (.str filename)),
          .prop "init" false (.ident "components") (.ident recordsId),
          .prop "init" false (.ident "locals")
            (.arrayE (t.locals.map (fun l => .ident l))),
          .prop "init" false (.ident "imports")
            (.arrayE (t.imports.map (fun imp =>
              Node.importRef (match resolvePath env imp filename with
                              | .ok r => r
                              | .error _ => imp) (some imp))))]])])

/-- Pure reading of defineInitTransformCall for a record whose specifiers
resolve: nothing when the self-import guard fires, the payload
otherwise.  (The error fallbacks inside the payload are never reached
under the linking hypotheses.) -/
def initCallOf (env : Env) (filename : String) (recordsId : String)
    (t : TransformTarget) (n : Nat) : Option (String × Node) :=
  if t.imports.any (importResolvesToProcessedFile env filename) then none
  else some (initCallPayload env filename recordsId t n)

/-- Claim-side reading of findDisplayName: a bound name wins; a call with
a single object-literal argument yields the literal value of the first
property carrying a static displayName key; nothing otherwise. -/
def findDisplayNameSpec (node : Node) : Option Lit :=
  match nodeId node with
  | some n => some (.str n)
  | none =>
    match node with
    | .call _ [.objectE props] =>
      (match props.find? (fun p => isLiteralDisplayName (toComputedKey p)) with
       | some p => propLitValue p
       | none => none)
    | _ => none

/-- Claim-side reading of a method literally named render: a class member
of method kind whose key node is the identifier render (string-keyed
methods carry no key name and do not qualify). -/
def IsMethodNamedRender (m : Node) : Prop :=
  ∃ computed value, m = Node.classMember "method" computed (.ident "render") value

/-- The nested call written in the claim, built from the reversed
identifier list: threadedCallRev of the reversed identifier list for
transforms T1 to Tn is Tn applied to the nesting over T1 to Tn-1, with
uniqueId as second argument everywhere. -/
def threadedCallRev : List String → Node
  | [] => .ident "ReactClass"
  | t :: rest => .call (.ident t) [threadedCallRev rest, .ident "uniqueId"]

/-- The claim-side composed body for transforms in configured order: the
leftmost transform innermost. -/
def threadedCall (ids : List String) : Node :=
  threadedCallRev ids.reverse

/-- Clean component lists: no empty, dot or dot-dot components (the shape
of normalised absolute paths). -/
def CleanParts (l : List String) : Prop :=
  ∀ x ∈ l, x ≠ "" ∧ x ≠ "." ∧ x ≠ ".."

/-- The init calls emitted for a configuration list when the counter
starts at n: each record consumes exactly one counter slot whether or
not it is skipped, so the entry of a record depends only on the record
itself and its position. -/
def initCallsFor (env : Env) (filename : String) (recordsId : String)
    (cfg : List TransformTarget) (n : Nat) : List (String × Node) :=
  ((cfg.enumFrom n).map
    (fun it => initCallOf env filename recordsId it.2 it.1)).filterMap id

/-- A permissive-policy environment: the plugin installed under
node_modules of a project at /proj, processing files with cwd /proj. -/
def envPermissive : Env :=
  ⟨"/proj", "/proj/node_modules/babel-plugin-react-transform/lib"⟩

/-- A conservative-policy environment: the plugin checked out outside any
node_modules directory. -/
def envConservative : Env :=
  ⟨"/proj", "/proj/checkout/babel-plugin-react-transform/lib"⟩

/-- A file whose extras bag exists but has no react-transform entry. -/
def fileNoConfig : FileOpts := ⟨"src/a.js", some ⟨none⟩⟩

/-- A file with a well-formed two-record configuration: the second record
imports the file being processed. -/
def cfgTwo : List TransformTarget :=
  [⟨"react-transform-hmr", ["./lib/a"], ["module"]⟩,
   ⟨"react-transform-catch", ["./src/foo"], []⟩]

/-- The file the cfgTwo records are resolved against. -/
def fileCfgTwo : FileOpts := ⟨"src/foo.js", some ⟨some (.list cfgTwo)⟩⟩

/-- A program with no component-like node: a class without a render
method, a nested function, and a two-argument createClass call (which
does not qualify). -/
def progNoComponent : List Node :=
  [.classNode false (some "Helper")
      [.classMember "method" false (.ident "mount")
        (.funcNode false none [] [.ret (some (.lit (.str "ok")))])] [],
   .exprStmt (.call (.member (.ident "React") false (.ident "createClass"))
      [.objectE [], .lit (.str "extra")]),
   .varDecl "var" [.declarator (.ident "x") (.lit (.str "1"))]]

/-- A createClass call with a static displayName property. -/
def createClassWithName : Node :=
  .call (.member (.ident "React") false (.ident "createClass"))
    [.objectE [
      .prop "init" false (.ident "displayName") (.lit (.str "Widget")),
      .prop "init" false (.ident "render")
        (.funcNode false none [] [.ret (some (.lit (.str "el")))])]]

/-- A state that has accumulated one component record. -/
def stOneRecord : St :=
  ⟨0, [.prop "init" false (.ident "_$Widget_1") (.objectE [])], "_wrapComponent_0", 2⟩

/-- The reduce of the source threads the transforms exactly as the
claim-side nested call does. -/
theorem foldl_eq_threadedCall (ids : List String) :
    ids.foldl (fun composed i => Node.call (.ident i) [composed, .ident "uniqueId"])
      (.ident "ReactClass") = threadedCall ids := by
  induction ids using List.reverseRecOn with
  | nil => rfl
  | append_singleton l a ih =>
    simp [threadedCall, List.reverse_append, threadedCallRev, List.foldl_append,
      List.foldl]
    exact ih

/-- Claim C3: for transform identifiers T1 .. Tn and wrapper identifier W,
defineWrapComponent synthesizes the function of uniqueId returning the
function of ReactClass whose body is Tn(... T2(T1(ReactClass,
uniqueId), uniqueId) ..., uniqueId): the first-configured transform is
innermost and every transform receives uniqueId as second argument.
Stated for every identifier list, which covers every non-empty one. -/
theorem wrap_composition_order (w : String) (ids : List String) :
    defineWrapComponent w ids =
      .funcNode true (some w) ["uniqueId"]
        [.ret (some (.funcNode false none ["ReactClass"]
          [.ret (some (threadedCall ids))]))] := by
  simp [defineWrapComponent, foldl_eq_threadedCall]

/-- Claim C4: with an empty transform list the synthesized inner function
returns its ReactClass parameter unchanged, i.e. it is the identity
function. -/
theorem wrap_empty_identity (w : String) :
    defineWrapComponent w [] =
      .funcNode true (some w) ["uniqueId"]
        [.ret (some (.funcNode false none ["ReactClass"]
          [.ret (some (.ident "ReactClass"))]))] := rfl

/-- The boolean member test of the source agrees with the claim-side
reading of a method literally named render. -/
theorem isRenderMethod_eq_true_iff (m : Node) :
    isRenderMethod m = true ↔ IsMethodNamedRender m := by
  constructor
  · intro h
    cases m <;> simp [isRenderMethod] at h
    case classMember kind comp key v =>
      obtain ⟨h1, h2⟩ := h
      cases key <;> simp [keyName] at h2
      exact ⟨comp, v, by rw [h1, h2]⟩
  · rintro ⟨comp, v, rfl⟩
    simp [isRenderMethod, keyName]

/-- Claim C7: isComponentishClass holds exactly when the class body holds
at least one method literally named render (one whose key node is the
identifier render and whose kind is method; string-keyed members carry
no key name in the tree and do not qualify). -/
theorem componentish_iff_render_method (isExpr : Bool) (id : Option String)
    (ms ds : List Node) :
    isComponentishClass (.classNode isExpr id ms ds) = true ↔
      ∃ m ∈ ms, IsMethodNamedRender m := by
  have h : isComponentishClass (.classNode isExpr id ms ds) = true ↔
      ¬ (ms.filter isRenderMethod = []) := by
    simp [isComponentishClass, List.length_pos]
  rw [h, List.filter_eq_nil_iff]
  push_neg
  constructor
  · rintro ⟨m, hm, hr⟩
    exact ⟨m, hm, (isRenderMethod_eq_true_iff m).mp hr⟩
  · rintro ⟨m, hm, hr⟩
    exact ⟨m, hm, (isRenderMethod_eq_true_iff m).mpr hr⟩

/-- The linear displayName scan of the source agrees with a first-match
search. -/
theorem scanDisplayName_eq_find (props : List Node) :
    scanDisplayName props =
      (match props.find? (fun p => isLiteralDisplayName (toComputedKey p)) with
       | some p => propLitValue p
       | none => none) := by
  induction props with
  | nil => rfl
  | cons p rest ih =>
    by_cases h : isLiteralDisplayName (toComputedKey p) = true
    · simp [scanDisplayName, h, List.find?_cons_of_pos]
    · have h' : isLiteralDisplayName (toComputedKey p) = false := by
        simpa using h
      simp [scanDisplayName, h', List.find?_cons_of_neg, ih]

/-- Claim C8: on every node whose call shape is the one the plugin feeds
it (a call carries a single object-literal argument), findDisplayName
returns the bound name when there is one, otherwise on a call the
literal value of the first statically-literal displayName property,
and nothing in every other case. -/
theorem findDisplayName_spec (node : Node)
    (hwf : ∀ c args, node = .call c args → ∃ props, args = [Node.objectE props]) :
    findDisplayName node = findDisplayNameSpec node := by
  cases node <;>
    simp [findDisplayName, findDisplayNameSpec, nodeId, nodeArguments]
  case call c args =>
    obtain ⟨props, rfl⟩ := hwf c args rfl
    simp [scanDisplayName_eq_find]

/-- Witness for C8: on a createClass call with a static displayName the
source function and the claim-side reading agree and produce the
literal. -/
theorem findDisplayName_spec_witness :
    findDisplayName createClassWithName = findDisplayNameSpec createClassWithName ∧
      findDisplayName createClassWithName = some (.str "Widget") :=
  ⟨findDisplayName_spec createClassWithName
    (by intro c args h; cases h; exact ⟨_, rfl⟩), rfl⟩

/-- Normalisation of a clean component list just appends it to the
stack. -/
theorem normAbsAux_clean (xs : List String) (hxs : CleanParts xs) :
    ∀ st, normAbsAux st xs = st.reverse ++ xs := by
  induction xs with
  | nil => intro st; simp [normAbsAux]
  | cons x xs ih =>
    intro st
    obtain ⟨h1, h2, h3⟩ := hxs x (by simp)
    have hxs' : CleanParts xs := fun y hy => hxs y (by simp [hy])
    simp [normAbsAux, h1, h2, h3, ih hxs']

/-- A clean prefix of the input moves wholesale onto the stack. -/
theorem normAbsAux_append_clean (xs : List String) (hxs : CleanParts xs) :
    ∀ st ys, normAbsAux st (xs ++ ys) = normAbsAux (xs.reverse ++ st) ys := by
  induction xs with
  | nil => intro st ys; simp
  | cons x xs ih =>
    intro st ys
    obtain ⟨h1, h2, h3⟩ := hxs x (by simp)
    have hxs' : CleanParts xs := fun y hy => hxs y (by simp [hy])
    simp [normAbsAux, h1, h2, h3, ih hxs']

/-- Each leading dot-dot pops one stack entry. -/
theorem normAbsAux_replicate (k : Nat) :
    ∀ st ys, normAbsAux st (List.replicate k ".." ++ ys) =
      normAbsAux (st.drop k) ys := by
  induction k with
  | zero => intro st ys; simp
  | succ k ih =>
    intro st ys
    have step : normAbsAux st (List.replicate (k + 1) ".." ++ ys) =
        normAbsAux st.tail (List.replicate k ".." ++ ys) := by
      simp [List.replicate_succ, normAbsAux]
    rw [step, ih st.tail ys, ← List.drop_one, List.drop_drop, Nat.add_comm]

/-- Normalisation output is clean whenever the stack is. -/
theorem normAbsAux_clean_out (l : List String) :
    ∀ st, CleanParts st → CleanParts (normAbsAux st l) := by
  induction l with
  | nil =>
    intro st hst
    simp only [normAbsAux]
    intro x hx
    exact hst x (List.mem_reverse.mp hx)
  | cons p ps ih =>
    intro st hst
    by_cases h1 : p = "" ∨ p = "."
    · simpa [normAbsAux, h1] using ih st hst
    · by_cases h2 : p = ".."
      · have htail : CleanParts st.tail := fun y hy => hst y (List.mem_of_mem_tail hy)
        simpa [normAbsAux, h1, h2] using ih st.tail htail
      · push_neg at h1
        have hpush : CleanParts (p :: st) := by
          intro y hy
          rcases List.mem_cons.mp hy with rfl | hy
          · exact ⟨h1.1, h1.2, h2⟩
          · exact hst y hy
        simpa [normAbsAux, h1.1, h1.2, h2] using ih (p :: st) hpush

/-- normParts always yields a clean component list. -/
theorem normParts_clean (l : List String) : CleanParts (normParts l) :=
  normAbsAux_clean_out l [] (by intro x hx; cases hx)

/-- absParts always yields a clean component list. -/
theorem absParts_clean (cwd p : String) : CleanParts (absParts cwd p) := by
  unfold absParts
  by_cases h : headIs '/' p <;> simp [h] <;> exact normParts_clean _

/-- The common prefix really is a common prefix. -/
theorem commonLen_take : ∀ f t : List String,
    f.take (commonLen f t) = t.take (commonLen f t) := by
  intro f
  induction f with
  | nil => intro t; simp [commonLen]
  | cons x xs ih =>
    intro t
    cases t with
    | nil => simp [commonLen]
    | cons y ys =>
      by_cases h : x = y
      · simp [commonLen, h, List.take_succ_cons, ih ys]
      · simp [commonLen, h]

/-- The common prefix length is bounded by the first list. -/
theorem commonLen_le_left : ∀ f t : List String, commonLen f t ≤ f.length := by
  intro f
  induction f with
  | nil => intro t; simp [commonLen]
  | cons x xs ih =>
    intro t
    cases t with
    | nil => simp [commonLen]
    | cons y ys =>
      by_cases h : x = y
      · simpa [commonLen, h, Nat.succ_le_succ_iff] using ih ys
      · simp [commonLen, h]

/-- Following the relative components emitted for a pair of clean
absolute component lists, starting from the source, reaches the
target: resolve(from, relative(from, to)) = resolve(to). -/
theorem normParts_append_relParts (d t : List String)
    (hd : CleanParts d) (ht : CleanParts t) :
    normParts (d ++ relParts d t) = t := by
  have hdropt : CleanParts (t.drop (commonLen d t)) := by
    intro x hx
    exact ht x (List.drop_subset _ _ hx)
  unfold normParts relParts
  rw [normAbsAux_append_clean d hd [] (List.replicate _ ".." ++ t.drop _),
    List.append_nil, normAbsAux_replicate, normAbsAux_clean _ hdropt]
  have h1 : d.reverse.drop (d.length - commonLen d t) =
      (d.take (commonLen d t)).reverse := List.reverse_take.symm
  rw [h1, List.reverse_reverse, commonLen_take, List.take_append_drop]

/-- Claim C6: the conservative policy rejects every specifier starting
with "." with UnsafeRelativePathError and passes other specifiers
through unchanged (the permissive policy passes them unchanged too);
the permissive policy resolves the same relative specifier to the
relative path from the directory of the consuming file to the import
target, prefixed with "." and the separator, and following those
relative components from that directory reaches exactly the target
module. -/
theorem resolver_policies (env : Env) (s f : String) :
    (headIs '.' s = true →
      resolvePathConservatively s f = .error .unsafeRelativePathError ∧
      resolvePathAssumingWeAreInNodeModules env s f =
        .ok ("." ++ sep ++ String.intercalate "/"
          (relParts (fileDirParts env f) (importTargetParts env s))) ∧
      normParts (fileDirParts env f ++
          relParts (fileDirParts env f) (importTargetParts env s)) =
        importTargetParts env s) ∧
    (headIs '.' s = false →
      resolvePathConservatively s f = .ok s ∧
      resolvePathAssumingWeAreInNodeModules env s f = .ok s) := by
  constructor
  · intro h
    refine ⟨by simp [resolvePathConservatively, h], ?_, ?_⟩
    · simp [resolvePathAssumingWeAreInNodeModules, h, pathRelative, fileDirParts,
        importTargetParts]
    · exact normParts_append_relParts _ _ (absParts_clean _ _) (absParts_clean _ _)
  · intro h
    exact ⟨by simp [resolvePathConservatively, h],
      by simp [resolvePathAssumingWeAreInNodeModules, h]⟩

/-- Witness for C6 at the relative specifier "./x" and the bare specifier
"lodash", consumed from src/a.js in the permissive environment. -/
theorem resolver_policies_witness :
    resolvePathConservatively "./x" "src/a.js" = .error .unsafeRelativePathError ∧
    resolvePathAssumingWeAreInNodeModules envPermissive "./x" "src/a.js" =
      .ok "./../x" ∧
    importTargetParts envPermissive "./x" = ["proj", "x"] ∧
    resolvePathConservatively "lodash" "src/a.js" = .ok "lodash" ∧
    resolvePathAssumingWeAreInNodeModules envPermissive "lodash" "src/a.js" =
      .ok "lodash" := by
  refine ⟨((resolver_policies envPermissive "./x" "src/a.js").1 rfl).1, ?_, rfl,
    ((resolver_policies envPermissive "lodash" "src/a.js").2 rfl).1,
    ((resolver_policies envPermissive "lodash" "src/a.js").2 rfl).2⟩
  have h := ((resolver_policies envPermissive "./x" "src/a.js").1 rfl).2.1
  exact h

/-- Unfolding of the short-circuiting some. -/
theorem anyE_cons (p : String → Except PluginError Bool) (x : String) (xs : List String) :
    anyE p (x :: xs) =
      (match p x with
       | .error e => .error e
       | .ok true => .ok true
       | .ok false => anyE p xs) := by
  cases h : p x with
  | error e => simp [anyE, h, Bind.bind, Except.bind]
  | ok b => cases b <;> simp [anyE, h, Bind.bind, Except.bind, Pure.pure, Except.pure]

/-- When every import of a record resolves, the monadic some of the
source computes the claim-side boolean any. -/
theorem anyE_eq_any (env : Env) (fn : String) (l : List String)
    (h : ∀ imp ∈ l, (resolvePath env imp fn).isOk = true) :
    anyE (isSameAsFileBeingProcessed env fn) l =
      .ok (l.any (importResolvesToProcessedFile env fn)) := by
  induction l with
  | nil => rfl
  | cons x xs ih =>
    have hx := h x (by simp)
    obtain ⟨r, hr⟩ : ∃ r, resolvePath env x fn = .ok r := by
      cases hc : resolvePath env x fn with
      | ok r => exact ⟨r, rfl⟩
      | error e => rw [hc] at hx; simp [Except.isOk, Except.toBool] at hx
    have ih' := ih (fun y hy => h y (by simp [hy]))
    rw [anyE_cons]
    have hsame : isSameAsFileBeingProcessed env fn x =
        .ok (importResolvesToProcessedFile env fn x) := by
      simp [isSameAsFileBeingProcessed, importResolvesToProcessedFile, hr]
    rw [hsame, List.any_cons]
    by_cases hb : importResolvesToProcessedFile env fn x = true
    · simp [hb]
    · simp only [Bool.not_eq_true] at hb
      simp [hb, ih']

/-- When every import resolves, the imports array is the pure map of the
resolved import references. -/
theorem mapImportNodes_eq (env : Env) (fn : String) (l : List String)
    (h : ∀ imp ∈ l, (resolvePath env imp fn).isOk = true) :
    mapImportNodes env fn l =
      .ok (l.map (fun imp => Node.importRef
        (match resolvePath env imp fn with
         | .ok r => r
         | .error _ => imp) (some imp))) := by
  induction l with
  | nil => rfl
  | cons x xs ih =>
    have hx := h x (by simp)
    obtain ⟨r, hr⟩ : ∃ r, resolvePath env x fn = .ok r := by
      cases hc : resolvePath env x fn with
      | ok r => exact ⟨r, rfl⟩
      | error e => rw [hc] at hx; simp [Except.isOk, Except.toBool] at hx
    have ih' := ih (fun y hy => h y (by simp [hy]))
    simp [mapImportNodes, hr, ih', Bind.bind, Except.bind, Pure.pure, Except.pure]

/-- Under resolving specifiers, the monadic defineInitTransformCall is
the pure per-record function, and consumes exactly one counter slot
whether or not the record is skipped. -/
theorem defineInitTransformCall_eq (env : Env) (fn rid : String)
    (t : TransformTarget) (n : Nat) (h : ResolveAllOk env fn t) :
    defineInitTransformCall env fn rid t n =
      .ok (initCallOf env fn rid t n, n + 1) := by
  obtain ⟨ht, himp⟩ := h
  obtain ⟨rt, hrt⟩ : ∃ r, resolvePath env t.target fn = .ok r := by
    cases hc : resolvePath env t.target fn with
    | ok r => exact ⟨r, rfl⟩
    | error e => rw [hc] at ht; simp [Except.isOk, Except.toBool] at ht
  unfold defineInitTransformCall
  rw [anyE_eq_any env fn t.imports himp]
  by_cases hb : t.imports.any (importResolvesToProcessedFile env fn) = true
  · simp [Bind.bind, Except.bind, hb, Pure.pure, Except.pure, initCallOf]
  · simp only [Bool.not_eq_true] at hb
    simp [Bind.bind, Except.bind, hb, hrt, mapImportNodes_eq env fn t.imports himp,
      Pure.pure, Except.pure, initCallOf, initCallPayload]

/-- The configuration map at Program exit computes, record by record, the
pure per-record init call at consecutive counter values. -/
theorem synthInitCalls_eq (env : Env) (fn rid : String) :
    ∀ (cfg : List TransformTarget) (n : Nat),
      (∀ t ∈ cfg, ResolveAllOk env fn t) →
      synthInitCalls env fn rid cfg n =
        .ok ((cfg.enumFrom n).map
          (fun it => initCallOf env fn rid it.2 it.1), n + cfg.length) := by
  intro cfg
  induction cfg with
  | nil => intro n _; simp [synthInitCalls, List.enumFrom]
  | cons t ts ih =>
    intro n h
    have ht := h t (by simp)
    have hts : ∀ t' ∈ ts, ResolveAllOk env fn t' :=
      fun t' ht' => h t' (List.mem_cons_of_mem t ht')
    simp only [synthInitCalls, Bind.bind, Except.bind,
      defineInitTransformCall_eq env fn rid t n ht, ih (n + 1) hts,
      List.enumFrom, List.map_cons, Pure.pure, Except.pure]
    have : n + 1 + ts.length = n + (t :: ts).length := by
      simp [List.length_cons]; omega
    rw [this]

/-- Claim C1: the init call of a record is omitted exactly when one of the
imports of that record, resolved through the Path Resolver, denotes
the module of the file being processed; the monadic source function
computes the pure per-record value; and across a configuration list
each record contributes exactly the entry computed from its own record
and counter slot, so skipping one record does not affect any other. -/
theorem self_import_guard :
    (∀ (env : Env) (fn rid : String) (t : TransformTarget) (n : Nat),
      initCallOf env fn rid t n = none ↔
        t.imports.any (importResolvesToProcessedFile env fn) = true) ∧
    (∀ (env : Env) (fn rid : String) (t : TransformTarget) (n : Nat),
      ResolveAllOk env fn t →
      defineInitTransformCall env fn rid t n =
        .ok (initCallOf env fn rid t n, n + 1)) ∧
    (∀ (env : Env) (fn rid : String) (cfg : List TransformTarget) (n : Nat),
      (∀ t ∈ cfg, ResolveAllOk env fn t) →
      synthInitCalls env fn rid cfg n =
        .ok ((cfg.enumFrom n).map
          (fun it => initCallOf env fn rid it.2 it.1), n + cfg.length)) := by
  refine ⟨?_, defineInitTransformCall_eq, synthInitCalls_eq⟩
  intro env fn rid t n
  by_cases h : t.imports.any (importResolvesToProcessedFile env fn) = true
  · simp [initCallOf, h]
  · simp only [Bool.not_eq_true] at h
    simp [initCallOf, h]

/-- Witness for C1: on the two-record configuration the second record
(whose import resolves to src/foo.js, the file being processed) is
skipped while the first is kept. -/
theorem self_import_guard_witness :
    initCallOf envPermissive "src/foo.js" "_components_2" cfgTwo[1] 4 = none ∧
    (initCallOf envPermissive "src/foo.js" "_components_2" cfgTwo[0] 3).isSome = true ∧
    synthInitCalls envPermissive "src/foo.js" "_components_2" cfgTwo 3 =
      .ok ((cfgTwo.enumFrom 3).map
        (fun it => initCallOf envPermissive "src/foo.js" "_components_2" it.2 it.1),
        3 + cfgTwo.length) := by
  refine ⟨?_, rfl, ?_⟩
  · exact (self_import_guard.1 envPermissive "src/foo.js" "_components_2"
      cfgTwo[1] 4).mpr rfl
  · refine self_import_guard.2.2 envPermissive "src/foo.js" "_components_2" cfgTwo 3 ?_
    intro t ht
    simp only [cfgTwo, List.mem_cons, List.mem_singleton] at ht
    rcases ht with rfl | rfl | h
    · exact ⟨rfl, by intro imp h; simp only [List.mem_singleton] at h; subst h; rfl⟩
    · exact ⟨rfl, by intro imp h; simp only [List.mem_singleton] at h; subst h; rfl⟩
    · cases h

/-- Counterexample to C2 as stated: an input file whose configuration
entry is absent — getPluginOptions itself rejects it — yet the
transform of a file without component-like nodes completes without any
error and returns the program unchanged. -/
theorem config_error_counterexample :
    getPluginOptions fileNoConfig = .error .configurationError ∧
    transformFile envPermissive fileNoConfig progNoComponent =
      .ok progNoComponent :=
  ⟨rfl, rfl⟩

/-- Claim C2 as amended: in a file where at least one component record
was accumulated and whose extras bag is present, an absent or
non-array configuration entry makes the transform fail with
ConfigurationError; the error value carries no synthesized output. -/
theorem config_error_on_synthesis (env : Env) (file : FileOpts) (st : St)
    (body : List Node) (hrec : foundComponentRecords st = true)
    (hbag : ∃ bag, file.extra = some bag ∧
      (bag.reactTransform = none ∨ bag.reactTransform = some .nonList)) :
    programExit env file st body = .error .configurationError := by
  obtain ⟨bag, hb, hv⟩ := hbag
  unfold programExit
  rcases hv with h | h <;> simp [hrec, getPluginOptions, hb, h]

/-- Witness for the amended C2. -/
theorem config_error_on_synthesis_witness :
    programExit envPermissive fileNoConfig stOneRecord [] =
      .error .configurationError :=
  config_error_on_synthesis envPermissive fileNoConfig stOneRecord []
    rfl ⟨⟨none⟩, rfl, Or.inl rfl⟩

/-- Mapping an if-none function and keeping the some entries is filtering
and mapping. -/
theorem filterMap_id_map_ite {α β : Type} (l : List α) (p : α → Bool) (g : α → β) :
    ((l.map (fun a => if p a then none else some (g a))).filterMap id) =
      (l.filter (fun a => !p a)).map g := by
  induction l with
  | nil => rfl
  | cons a as ih =>
    by_cases h : p a = true
    · simp [h, ih]
    · simp only [Bool.not_eq_true] at h
      simp [h, ih]

/-- The init-call list of a configuration is the payloads of the
non-skipped records, order preserved and skipped records dropped. -/
theorem initCallsFor_eq_filter (env : Env) (fn rid : String) :
    ∀ (cfg : List TransformTarget) (n : Nat),
      initCallsFor env fn rid cfg n =
        ((cfg.enumFrom n).filter
          (fun it => !(it.2.imports.any
            (importResolvesToProcessedFile env fn)))).map
          (fun it => initCallPayload env fn rid it.2 it.1) := by
  intro cfg
  induction cfg with
  | nil => intro n; rfl
  | cons t ts ih =>
    intro n
    have hstep : initCallsFor env fn rid (t :: ts) n =
        (initCallOf env fn rid t n ::
          (List.enumFrom (n + 1) ts).map
            (fun it => initCallOf env fn rid it.2 it.1)).filterMap id := rfl
    have henum : List.enumFrom n (t :: ts) = (n, t) :: List.enumFrom (n + 1) ts := rfl
    by_cases h : t.imports.any (importResolvesToProcessedFile env fn) = true
    · have hnone : id (initCallOf env fn rid t n) = none := by
        unfold initCallOf; rw [if_pos h]; rfl
      rw [hstep, List.filterMap_cons_none hnone, henum]
      simp only [List.filter_cons]
      rw [if_neg (by simp [h])]
      exact ih (n + 1)
    · have h' : t.imports.any (importResolvesToProcessedFile env fn) = false := by
        simpa using h
      have hsome : id (initCallOf env fn rid t n) =
          some (initCallPayload env fn rid t n) := by
        unfold initCallOf; rw [if_neg (by simp [h'])]; rfl
      rw [hstep, List.filterMap_cons_some hsome, henum]
      simp only [List.filter_cons]
      rw [if_pos (by simp [h']), List.map_cons]
      exact congrArg (fun l => initCallPayload env fn rid t n :: l) (ih (n + 1))

/-- Claim C9: with records accumulated, a well-formed configuration and
resolving specifiers, Program exit rebuilds the program as the records
declaration, then the init-call declarations, then the wrap-component
declaration, then the original statements; and the init calls are one
per non-skipped target record in configured order, skipped records
dropped, each computed from its own record and counter slot. -/
theorem program_rebuild_order (env : Env) (file : FileOpts) (st : St)
    (body : List Node) (cfg : List TransformTarget)
    (hrec : foundComponentRecords st = true)
    (hcfg : file.extra = some ⟨some (.list cfg)⟩)
    (hres : ∀ t ∈ cfg, ResolveAllOk env file.filename t) :
    programExit env file st body =
      .ok (Node.varDecl "var"
          [.declarator (.ident (genUid "components" st.uid)) (.objectE st.records)] ::
        ((initCallsFor env file.filename (genUid "components" st.uid) cfg
            (st.uid + 1)).map Prod.snd ++
          defineWrapComponent st.wrapComponentId
            ((initCallsFor env file.filename (genUid "components" st.uid) cfg
              (st.uid + 1)).map Prod.fst) :: body)) ∧
    initCallsFor env file.filename (genUid "components" st.uid) cfg (st.uid + 1) =
      ((cfg.enumFrom (st.uid + 1)).filter
        (fun it => !(it.2.imports.any
          (importResolvesToProcessedFile env file.filename)))).map
        (fun it => initCallPayload env file.filename
          (genUid "components" st.uid) it.2 it.1) := by
  constructor
  · have hsyn := synthInitCalls_eq env file.filename (genUid "components" st.uid)
      cfg (st.uid + 1) hres
    unfold programExit
    simp [hrec, getPluginOptions, hcfg, defineComponentRecords, freshUid, hsyn,
      initCallsFor]
  · exact initCallsFor_eq_filter env file.filename (genUid "components" st.uid)
      cfg (st.uid + 1)

/-- Witness for C9: both targets resolve, the second is skipped for
importing the processed file, and the rebuilt program shows the
records declaration, the single surviving init call, the wrapper and
the original statement in order. -/
theorem program_rebuild_order_witness :
    programExit envPermissive fileCfgTwo stOneRecord [.exprStmt (.ident "orig")] =
      .ok (Node.varDecl "var"
          [.declarator (.ident (genUid "components" 2)) (.objectE stOneRecord.records)] ::
        ((initCallsFor envPermissive "src/foo.js" (genUid "components" 2) cfgTwo 3).map
            Prod.snd ++
          defineWrapComponent "_wrapComponent_0"
            ((initCallsFor envPermissive "src/foo.js" (genUid "components" 2) cfgTwo 3).map
              Prod.fst) :: [.exprStmt (.ident "orig")])) ∧
    (initCallsFor envPermissive "src/foo.js" (genUid "components" 2) cfgTwo 3).length = 1 := by
  constructor
  · exact (program_rebuild_order envPermissive fileCfgTwo stOneRecord
      [.exprStmt (.ident "orig")] cfgTwo rfl rfl (by
        intro t ht
        simp only [cfgTwo, List.mem_cons, List.mem_singleton] at ht
        rcases ht with rfl | rfl | hf
        · exact ⟨rfl, by intro imp hi; simp only [List.mem_singleton] at hi; subst hi; rfl⟩
        · exact ⟨rfl, by intro imp hi; simp only [List.mem_singleton] at hi; subst hi; rfl⟩
        · cases hf)).1
  · rfl

/-- Structure eta for the traversal state. -/
theorem St_eta (s : St) : ({ s with depth := s.depth } : St) = s := rfl

mutual

/-- A tree without component-like nodes passes through the visitors
untouched, state included. -/
theorem visitNode_no_comp : ∀ (n : Node) (st : St),
    hasComponentish n = false → visitNode n st = (n, st)
  | .ident _, _, _ => rfl
  | .lit _, _, _ => rfl
  | .importRef _ _, _, _ => rfl
  | .member obj comp key, st, h => by
    have hh : hasComponentish obj = false ∧ hasComponentish key = false := by
      simpa [hasComponentish] using h
    simp [visitNode, visitNode_no_comp obj st hh.1, visitNode_no_comp key st hh.2]
  | .call c args, st, h => by
    have hh : (isCreateClass (.call c args) = false ∧ hasComponentish c = false) ∧
        hasComponentishList args = false := by
      simpa [hasComponentish] using h
    simp [visitNode, visitNode_no_comp c st hh.1.2,
      visitList_no_comp args st hh.2, callExitVisitor, hh.1.1]
  | .objectE ps, st, h => by
    have hh : hasComponentishList ps = false := by
      simpa [hasComponentish] using h
    simp [visitNode, visitList_no_comp ps st hh]
  | .prop kind comp k v, st, h => by
    have hh : hasComponentish k = false ∧ hasComponentish v = false := by
      simpa [hasComponentish] using h
    simp [visitNode, visitNode_no_comp k st hh.1, visitNode_no_comp v st hh.2]
  | .arrayE es, st, h => by
    have hh : hasComponentishList es = false := by
      simpa [hasComponentish] using h
    simp [visitNode, visitList_no_comp es st hh]
  | .classNode e id ms ds, st, h => by
    have hh : (isComponentishClass (.classNode e id ms ds) = false ∧
        hasComponentishList ms = false) ∧ hasComponentishList ds = false := by
      simpa [hasComponentish] using h
    simp [visitNode, hh.1.1, visitList_no_comp ms st hh.1.2,
      visitList_no_comp ds st hh.2]
  | .classMember kind comp k v, st, h => by
    have hh : hasComponentish k = false ∧ hasComponentish v = false := by
      simpa [hasComponentish] using h
    simp [visitNode, visitNode_no_comp k st hh.1, visitNode_no_comp v st hh.2]
  | .funcNode d i ps body, st, h => by
    have hh : hasComponentishList body = false := by
      simpa [hasComponentish] using h
    simp [visitNode, visitList_no_comp body { st with depth := st.depth + 1 } hh,
      St_eta]
  | .varDecl k ds, st, h => by
    have hh : hasComponentishList ds = false := by
      simpa [hasComponentish] using h
    simp [visitNode, visitList_no_comp ds st hh]
  | .declarator i e, st, h => by
    have hh : hasComponentish i = false ∧ hasComponentish e = false := by
      simpa [hasComponentish] using h
    simp [visitNode, visitNode_no_comp i st hh.1, visitNode_no_comp e st hh.2]
  | .exprStmt e, st, h => by
    have hh : hasComponentish e = false := by
      simpa [hasComponentish] using h
    simp [visitNode, visitNode_no_comp e st hh]
  | .ret none, _, _ => rfl
  | .ret (some e), st, h => by
    have hh : hasComponentish e = false := by
      simpa [hasComponentish] using h
    simp [visitNode, visitNode_no_comp e st hh]
  | .decorator e, st, h => by
    have hh : hasComponentish e = false := by
      simpa [hasComponentish] using h
    simp [visitNode, visitNode_no_comp e st hh]

/-- List version of visitNode_no_comp. -/
theorem visitList_no_comp : ∀ (l : List Node) (st : St),
    hasComponentishList l = false → visitList l st = (l, st)
  | [], _, _ => rfl
  | n :: ns, st, h => by
    have hh : hasComponentish n = false ∧ hasComponentishList ns = false := by
      simpa [hasComponentishList] using h
    simp [visitList, visitNode_no_comp n st hh.1, visitList_no_comp ns st hh.2]

end

/-- Shared helper: a file without component-like nodes is returned
unchanged by the whole transform. -/
theorem transformFile_id_of_no_comp (env : Env) (file : FileOpts) (p : List Node)
    (h : hasComponentishList p = false) : transformFile env file p = .ok p := by
  have hv := visitList_no_comp p ⟨0, [], genUid "wrapComponent" 0, 1⟩ h
  unfold transformFile
  simp only [freshUid]
  rw [hv]
  unfold programExit
  simp [foundComponentRecords]

/-- Claim C5: when no component-like node is detected anywhere in the
file, the transform returns the input tree unchanged: no synthesized
declarations and no mutated definition sites. -/
theorem no_component_no_change (env : Env) (file : FileOpts) (p : List Node)
    (h : hasComponentishList p = false) : transformFile env file p = .ok p :=
  transformFile_id_of_no_comp env file p h

/-- Witness for C5: the concrete component-free program passes through
the conservative-policy transform unchanged. -/
theorem no_component_no_change_witness :
    hasComponentishList progNoComponent = false ∧
    transformFile envConservative fileNoConfig progNoComponent =
      .ok progNoComponent :=
  ⟨rfl, no_component_no_change envConservative fileNoConfig progNoComponent rfl⟩

/-- Claim C10: the configuration is consulted only during Program-exit
synthesis and only when records were accumulated: with no records the
exit is a no-op whatever the configuration holds, and a file without
component-like nodes never raises ConfigurationError, even with an
absent or malformed configuration. -/
theorem config_unread_without_records :
    (∀ (env : Env) (file : FileOpts) (st : St) (body : List Node),
      st.records = [] → programExit env file st body = .ok body) ∧
    (∀ (env : Env) (fn : String) (extra : Option ExtraBag) (p : List Node),
      hasComponentishList p = false →
      transformFile env ⟨fn, extra⟩ p ≠ .error PluginError.configurationError) := by
  constructor
  · intro env file st body hrec
    unfold programExit
    simp [foundComponentRecords, hrec]
  · intro env fn extra p h
    rw [transformFile_id_of_no_comp env ⟨fn, extra⟩ p h]
    intro hc
    cases hc

/-- Witness for C10: a state with no records, a file whose configuration
entry is a non-array, and the component-free program. -/
theorem config_unread_without_records_witness :
    programExit envPermissive ⟨"src/a.js", some ⟨some .nonList⟩⟩
      ⟨0, [], "_w", 1⟩ progNoComponent = .ok progNoComponent ∧
    transformFile envPermissive ⟨"src/a.js", some ⟨some .nonList⟩⟩
      progNoComponent ≠ .error PluginError.configurationError :=
  ⟨config_unread_without_records.1 envPermissive ⟨"src/a.js", some ⟨some .nonList⟩⟩
      ⟨0, [], "_w", 1⟩ progNoComponent rfl,
    config_unread_without_records.2 envPermissive "src/a.js" (some ⟨some .nonList⟩)
      progNoComponent rfl⟩

end ReactTransform
